import Mathlib

/-!
# WiFi file transfer (ESP32): packetisation, retrieval and upload verification

A shallow embedding of `src/main.cpp`:

* `calculateXORChecksum`            (main.cpp 336-342)
* `handleDownloadPackets`           (main.cpp 216-258)
* `handleGetPacket`                 (main.cpp 260-334)
* `handleFileUpload`                (main.cpp 103-185), its three branches

Machine integers are natural numbers reduced explicitly at the width of the
C++ type that holds them (`uint8_t`: 2^8, `uint16_t`: 2^16, `size_t`: 2^32 on
the ESP32).  A byte is a `Fin 256`.  SPIFFS is a finite map from path to
content.
-/

namespace WiFiFileTransfer

/-! ## Data model -/

/-- A `uint8_t` value. -/
abbrev Byte := Fin 256

/-- The record `struct Packet` (main.cpp 13-19): `packetNumber` is a
`uint16_t`, `dataLength` a `uint8_t`, `data` the 16-byte array, `checksum` a
`uint8_t`. -/
structure Packet where
  packetNumber : Nat
  dataLength : Nat
  data : List Byte
  checksum : Byte
deriving DecidableEq, Repr

/-- SPIFFS seen from the handlers: the content stored under a path, `none`
when `SPIFFS.open(path, "r")` yields no file. -/
abbrev Storage := String → Option (List Byte)

/-- Writing one path of the store. -/
def Storage.put (fs : Storage) (path : String) (content : List Byte) : Storage :=
  fun p => if p = path then some content else fs p

/-- The number of values of a `size_t` on the ESP32 (32-bit target). -/
def SIZE_RANGE : Nat := 2 ^ 32

/-- The number of values of a `uint16_t`. -/
def UINT16_RANGE : Nat := 2 ^ 16

/-- The number of values of a `uint8_t`. -/
def UINT8_RANGE : Nat := 2 ^ 8

/-! ## calculateXORChecksum -/

/-- The function `calculateXORChecksum(uint8_t* data, uint8_t length)`
(main.cpp 336-342): `checksum` starts at 0 and is XOR-ed with `data[i]` for
`i = 0 .. length-1`.  `data` is the memory the pointer designates; `length`
is narrowed to `uint8_t` at the call. -/
def calculateXORChecksum (data : List Byte) (length : Nat) : Byte :=
  (List.range (length % UINT8_RANGE)).foldl
    (fun checksum i => checksum ^^^ data.getD i 0) 0

/-! ## Path normalisation and packet count -/

/-- The path the handlers open: `filename` when it starts with `/`,
otherwise `"/" + filename` (main.cpp 224-227, 270-273). -/
def fullPath (filename : String) : String :=
  if filename.data.head? = some '/' then filename else "/" ++ filename

/-- The value of `file.size()`, a `size_t`. -/
def fileSizeOf (file : List Byte) : Nat := file.length % SIZE_RANGE

/-- The statement `uint16_t totalPackets = (fileSize + 15) / 16;`
(main.cpp 247, 290, 352): the sum is a `size_t`, the quotient is narrowed to
16 bits. -/
def totalPacketsOf (fileSize : Nat) : Nat :=
  ((fileSize + 15) % SIZE_RANGE / 16) % UINT16_RANGE

/-! ## handleDownloadPackets -/

/-- The fields of the JSON object sent by `handleDownloadPackets`. -/
structure PacketInfo where
  fileSize : Nat
  totalPackets : Nat
  packetSize : Nat
deriving DecidableEq, Repr

/-- The replies of `handleDownloadPackets`. -/
inductive InfoResponse where
  | missingFileParameter
  | fileNotFound
  | ok (info : PacketInfo)
deriving DecidableEq, Repr

/-- The handler `handleDownloadPackets` (main.cpp 216-258); `filename` is
`server.arg("file")`. -/
def handleDownloadPackets (fs : Storage) (filename : String) : InfoResponse :=
  if filename = "" then InfoResponse.missingFileParameter
  else
    match fs (fullPath filename) with
    | none => InfoResponse.fileNotFound
    | some file =>
      let fileSize := fileSizeOf file
      let totalPackets := totalPacketsOf fileSize
      InfoResponse.ok { fileSize := fileSize, totalPackets := totalPackets, packetSize := 16 }

/-! ## handleGetPacket -/

/-- The replies of `handleGetPacket`: the three error replies and the packet
that is serialised into the 200 reply. -/
inductive PacketResponse where
  | missingParameters
  | fileNotFound
  | outOfRange
  | ok (packet : Packet)
deriving DecidableEq, Repr

/-- The handler `handleGetPacket` (main.cpp 260-318), up to the serialisation
of the record.  `filename` is `server.arg("file")`.  `num` is `none` when
`server.arg("num")` is the empty string and otherwise the `long` that
`String::toInt` returns for it; that value is narrowed to the `uint16_t`
variable `packetNum` (main.cpp 275). -/
def handleGetPacket (fs : Storage) (filename : String) (num : Option Int) : PacketResponse :=
  match num with
  | none => PacketResponse.missingParameters
  | some v =>
    if filename = "" then PacketResponse.missingParameters
    else
      let packetNum := (v % (UINT16_RANGE : Int)).toNat
      match fs (fullPath filename) with
      | none => PacketResponse.fileNotFound
      | some file =>
        let fileSize := fileSizeOf file
        let totalPackets := totalPacketsOf fileSize
        if packetNum ≥ totalPackets then PacketResponse.outOfRange
        else
          let seekPos := packetNum * 16
          let read := (file.drop seekPos).take 16
          let bytesRead := read.length
          let dataLength := bytesRead % UINT8_RANGE
          let data := read ++ List.replicate (16 - bytesRead) 0
          PacketResponse.ok
            { packetNumber := packetNum
              dataLength := dataLength
              data := data
              checksum := calculateXORChecksum data dataLength }

/-- The bytes `data[0:dataLength]` of a reply, `none` for an error reply. -/
def payloadOf : PacketResponse → Option (List Byte)
  | PacketResponse.ok p => some (p.data.take p.dataLength)
  | _ => none

/-- A client that requests packets `i, i+1, ..., i+count-1` of a file in
order and concatenates `data[0:dataLength]` of the replies; `none` as soon as
one request fails. -/
def download (fs : Storage) (filename : String) (i : Nat) : Nat → Option (List Byte)
  | 0 => some []
  | count + 1 =>
    match payloadOf (handleGetPacket fs filename (some (i : Int))) with
    | none => none
    | some bytes => (download fs filename (i + 1) count).map (fun rest => bytes ++ rest)

/-! ## handleFileUpload -/

/-- The last column of the verification table. -/
inductive Status where
  | MATCH
  | MISMATCH
deriving DecidableEq, Repr

/-- One row of the verification table (main.cpp 170-173). -/
structure Row where
  packetNum : Nat
  uploadChecksum : Byte
  spiffsChecksum : Byte
  status : Status
deriving DecidableEq, Repr

/-- The values of `upload.status`. -/
inductive UploadStatus where
  | UPLOAD_FILE_START
  | UPLOAD_FILE_WRITE
  | UPLOAD_FILE_END
  | UPLOAD_FILE_ABORTED
deriving DecidableEq, Repr

/-- The fields of `HTTPUpload` the handler reads; `buf` holds the
`upload.currentSize` bytes of the arriving chunk. -/
structure HTTPUpload where
  status : UploadStatus
  filename : String
  buf : List Byte

/-- The function-static variables of `handleFileUpload` (main.cpp 106-107). -/
structure UploadSession where
  uploadedFile : String
  uploadChecksums : List Byte

/-- The state the upload handler works on: its statics and SPIFFS. -/
structure Device where
  session : UploadSession
  fs : Storage

/-- What `handleFileUpload` sends: nothing, the 500 reply, or the table. -/
inductive UploadReply where
  | silent
  | errorVerifying
  | report (rows : List Row)
deriving DecidableEq, Repr

/-- The loop of the UPLOAD_FILE_WRITE branch (main.cpp 136-141), entered at
index `i`: one checksum is pushed for each group of at most 16 bytes of the
arriving chunk `buf`. -/
def checksumChunk (buf : List Byte) (i : Nat) (uploadChecksums : List Byte) : List Byte :=
  if i < buf.length then
    let len := min 16 (buf.length - i)
    let checksum := calculateXORChecksum (buf.drop i) len
    checksumChunk buf (i + 16) (uploadChecksums ++ [checksum])
  else uploadChecksums
termination_by buf.length - i

/-- The loop of the UPLOAD_FILE_END branch (main.cpp 162-176): `rest` is what
the open file still has to deliver, `packetNum` the `uint16_t` counter. -/
def verifyLoop (uploadChecksums : List Byte) (rest : List Byte) (packetNum : Nat) : List Row :=
  if rest = [] then []
  else
    let read := rest.take 16
    let bytesRead := read.length
    let buffer := read ++ List.replicate (16 - bytesRead) 0
    let spiffsChecksum := calculateXORChecksum buffer bytesRead
    let uploadChecksum : Byte :=
      if packetNum < uploadChecksums.length then uploadChecksums.getD packetNum 0 else 0xFF
    let row : Row :=
      { packetNum := packetNum
        uploadChecksum := uploadChecksum
        spiffsChecksum := spiffsChecksum
        status := if uploadChecksum = spiffsChecksum then Status.MATCH else Status.MISMATCH }
    row :: verifyLoop uploadChecksums (rest.drop 16) ((packetNum + 1) % UINT16_RANGE)
termination_by rest.length
decreasing_by
  simp only [List.length_drop]
  have : 0 < rest.length := List.length_pos.mpr (by assumption)
  omega

/-- The handler `handleFileUpload` (main.cpp 103-185).  `openOk` tells whether
the `SPIFFS.open` of this call yields a file; an opened file takes every byte
written to it. -/
def handleFileUpload (openOk : Bool) (upload : HTTPUpload) (d : Device) : Device × UploadReply :=
  match upload.status with
  | UploadStatus.UPLOAD_FILE_START =>
    let uploadedFile := "/" ++ upload.filename
    if openOk then
      ({ session := { uploadedFile := uploadedFile, uploadChecksums := [] }
         fs := d.fs.put uploadedFile [] }, UploadReply.silent)
    else
      ({ d with session := { d.session with uploadedFile := uploadedFile } }, UploadReply.silent)
  | UploadStatus.UPLOAD_FILE_WRITE =>
    let fs :=
      if openOk then
        d.fs.put d.session.uploadedFile ((d.fs d.session.uploadedFile).getD [] ++ upload.buf)
      else d.fs
    ({ session := { d.session with
                    uploadChecksums := checksumChunk upload.buf 0 d.session.uploadChecksums }
       fs := fs }, UploadReply.silent)
  | UploadStatus.UPLOAD_FILE_END =>
    match (if openOk then d.fs d.session.uploadedFile else none) with
    | none => (d, UploadReply.errorVerifying)
    | some file => (d, UploadReply.report (verifyLoop d.session.uploadChecksums file 0))
  | UploadStatus.UPLOAD_FILE_ABORTED => (d, UploadReply.silent)

/-- The events UPLOAD_FILE_START and one UPLOAD_FILE_WRITE per chunk, every
`SPIFFS.open` succeeding. -/
def receiveUpload (d : Device) (filename : String) (chunks : List (List Byte)) : Device :=
  chunks.foldl
    (fun dev chunk => (handleFileUpload true ⟨UploadStatus.UPLOAD_FILE_WRITE, filename, chunk⟩ dev).1)
    (handleFileUpload true ⟨UploadStatus.UPLOAD_FILE_START, filename, []⟩ d).1

/-- The event UPLOAD_FILE_END, the open for reading not failing. -/
def finishUpload (d : Device) (filename : String) : UploadReply :=
  (handleFileUpload true ⟨UploadStatus.UPLOAD_FILE_END, filename, []⟩ d).2

/-- A whole upload: start, the chunks in order, end. -/
def runUpload (d : Device) (filename : String) (chunks : List (List Byte)) : UploadReply :=
  finishUpload (receiveUpload d filename chunks) filename

/-- The persisted file is altered between the last write and the
verification: byte `p` of the uploaded file becomes `v`. -/
def corruptStored (d : Device) (p : Nat) (v : Byte) : Device :=
  match d.fs d.session.uploadedFile with
  | none => d
  | some file => { d with fs := d.fs.put d.session.uploadedFile (file.set p v) }

/-! ## Reference notions taken from the specification -/

/-- The specification's `ceil(L/16)`. -/
def packetCount (L : Nat) : Nat := if L % 16 = 0 then L / 16 else L / 16 + 1

/-- The specification's `fold_xor`: exclusive-or fold, left to right, from 0. -/
def xorFold (bytes : List Byte) : Byte := bytes.foldl (fun acc b => acc ^^^ b) 0

/-- The `i`-th 16-byte group of a byte sequence: offsets `16*i .. 16*i+15`,
cut at the end of the sequence. -/
def groupAt (bytes : List Byte) (i : Nat) : List Byte := (bytes.drop (16 * i)).take 16

/-- The XOR checksums of the consecutive 16-byte groups of a byte sequence. -/
def groupChecksums (bytes : List Byte) : List Byte :=
  (List.range (packetCount bytes.length)).map (fun i => xorFold (groupAt bytes i))

/-- The specification's `dataLength` of packet `i` of a file of `L` bytes. -/
def referenceDataLength (L i : Nat) : Nat :=
  if i + 1 < packetCount L then 16 else if L % 16 = 0 then 16 else L % 16

/-- An empty device: no file stored, no session. -/
def emptyDevice : Device := { session := { uploadedFile := "", uploadChecksums := [] }, fs := fun _ => none }

/-- The 18-byte file of the scenario, "ABCDEFGHIJKLMNOPQR". -/
def helloBytes : List Byte :=
  [65, 66, 67, 68, 69, 70, 71, 72, 73, 74, 75, 76, 77, 78, 79, 80, 81, 82]

/-- A store that holds `helloBytes` under `/hello.bin` and nothing else. -/
def helloStore : Storage :=
  fun p => if p = "/hello.bin" then some helloBytes else none

/-! ## Auxiliary definitions and concrete inputs -/

/-- The row the verification loop emits for one group. -/
def rowFor (uploadChecksums : List Byte) (packetNum : Nat) (group : List Byte) : Row :=
  let uploadChecksum : Byte :=
    if packetNum < uploadChecksums.length then uploadChecksums.getD packetNum 0 else 0xFF
  { packetNum := packetNum
    uploadChecksum := uploadChecksum
    spiffsChecksum := xorFold group
    status := if uploadChecksum = xorFold group then Status.MATCH else Status.MISMATCH }

/-- A file of 1048561 bytes (16 * 65535 + 1), all zero: 65536 groups. -/
@[irreducible] def bigFile : List Byte := List.replicate 1048561 0

/-- A store in which every path holds `bigFile`. -/
def bigStore : Storage := fun _ => some bigFile

/-- The chunk sizes are multiples of 16, except possibly the last. -/
def Aligned (chunks : List (List Byte)) : Prop :=
  ∀ c ∈ chunks.dropLast, c.length % 16 = 0

/-- An upload in 65536 chunks of 16 zero bytes followed by a chunk holding
the single byte 1: 1048577 bytes, 65537 groups. -/
@[irreducible] def bigChunks : List (List Byte) :=
  List.replicate 65536 (List.replicate 16 0) ++ [[1]]

/-- A device whose session names `/f`, whose log is empty and whose stored
file `/f` holds the single byte 0xFF. -/
def sentinelDevice : Device :=
  { session := { uploadedFile := "/f", uploadChecksums := [] }
    fs := fun q => if q = "/f" then some [0xFF] else none }

/-! ## Exclusive-or on bytes -/

theorem Byte.val_xor (a b : Byte) : (a ^^^ b).val = a.val ^^^ b.val := by
  obtain ⟨a, ha⟩ := a
  obtain ⟨b, hb⟩ := b
  show (a ^^^ b) % 256 = a ^^^ b
  exact Nat.mod_eq_of_lt (Nat.xor_lt_two_pow (n := 8) ha hb)

theorem Byte.xor_comm (a b : Byte) : a ^^^ b = b ^^^ a := by
  apply Fin.ext
  rw [Byte.val_xor, Byte.val_xor, Nat.xor_comm]

theorem Byte.xor_assoc (a b c : Byte) : (a ^^^ b) ^^^ c = a ^^^ (b ^^^ c) := by
  apply Fin.ext
  simp only [Byte.val_xor, Nat.xor_assoc]

theorem Byte.xor_zero (a : Byte) : a ^^^ 0 = a := by
  apply Fin.ext
  rw [Byte.val_xor]
  exact Nat.xor_zero a.val

theorem Byte.zero_xor (a : Byte) : 0 ^^^ a = a := by
  rw [Byte.xor_comm, Byte.xor_zero]

theorem Byte.xor_self (a : Byte) : a ^^^ a = 0 := by
  apply Fin.ext
  rw [Byte.val_xor]
  exact Nat.xor_self a.val

theorem Byte.xor_right_comm (a b c : Byte) : (a ^^^ b) ^^^ c = (a ^^^ c) ^^^ b := by
  rw [Byte.xor_assoc, Byte.xor_comm b c, ← Byte.xor_assoc]

theorem Byte.xor_left_cancel {a b c : Byte} (h : a ^^^ b = a ^^^ c) : b = c := by
  have h2 : a ^^^ (a ^^^ b) = a ^^^ (a ^^^ c) := by rw [h]
  rwa [← Byte.xor_assoc, ← Byte.xor_assoc, Byte.xor_self, Byte.zero_xor, Byte.zero_xor] at h2

/-! ## The XOR fold -/

theorem foldl_xor_init (acc : Byte) (l : List Byte) :
    l.foldl (fun c b => c ^^^ b) acc = acc ^^^ xorFold l := by
  unfold xorFold
  induction l generalizing acc with
  | nil => simp [Byte.xor_zero]
  | cons x xs ih =>
    simp only [List.foldl_cons]
    rw [ih (acc ^^^ x), ih (0 ^^^ x), Byte.zero_xor, Byte.xor_assoc]

theorem xorFold_nil : xorFold [] = 0 := rfl

theorem xorFold_cons (x : Byte) (xs : List Byte) : xorFold (x :: xs) = x ^^^ xorFold xs := by
  show List.foldl (fun c b => c ^^^ b) (0 ^^^ x) xs = _
  rw [foldl_xor_init, Byte.zero_xor]

theorem xorFold_append (l₁ l₂ : List Byte) : xorFold (l₁ ++ l₂) = xorFold l₁ ^^^ xorFold l₂ := by
  induction l₁ with
  | nil => simp [xorFold_nil, Byte.zero_xor]
  | cons x xs ih => simp only [List.cons_append, xorFold_cons, ih, Byte.xor_assoc]

theorem xorFold_perm {xs ys : List Byte} (h : List.Perm ys xs) : xorFold ys = xorFold xs := by
  induction h with
  | nil => rfl
  | cons x _ ih => rw [xorFold_cons, xorFold_cons, ih]
  | swap x y l =>
    simp only [xorFold_cons]
    rw [← Byte.xor_assoc, ← Byte.xor_assoc, Byte.xor_comm y x]
  | trans _ _ ih₁ ih₂ => rw [ih₁, ih₂]

/-- The loop of `calculateXORChecksum` over the first `n` bytes of `data`
is the fold of those bytes. -/
theorem checksum_loop_eq (data : List Byte) (n : Nat) (hn : n ≤ data.length) :
    (List.range n).foldl (fun checksum i => checksum ^^^ data.getD i 0) 0
      = xorFold (data.take n) := by
  induction n with
  | zero => simp [xorFold_nil]
  | succ k ih =>
    have hk : k < data.length := hn
    rw [List.range_succ, List.foldl_append, ih (Nat.le_of_lt hk), List.take_succ,
      xorFold_append, List.getElem?_eq_getElem hk]
    simp [List.getD_eq_getElem?_getD, List.getElem?_eq_getElem hk, xorFold_cons, xorFold_nil,
      Byte.xor_zero]

theorem calculateXORChecksum_eq (data : List Byte) (n : Nat) (hn : n ≤ data.length)
    (h8 : n < 256) : calculateXORChecksum data n = xorFold (data.take n) := by
  unfold calculateXORChecksum UINT8_RANGE
  rw [show n % 2 ^ 8 = n from Nat.mod_eq_of_lt h8]
  exact checksum_loop_eq data n hn

/-! ## Packet count and 16-byte groups -/

theorem packetCount_eq (L : Nat) : packetCount L = (L + 15) / 16 := by
  unfold packetCount
  split <;> omega

theorem packetCount_bounds (L : Nat) : L ≤ 16 * packetCount L ∧ 16 * packetCount L < L + 16 := by
  rw [packetCount_eq]
  omega

theorem packetCount_drop (rest : List Byte) (h : rest ≠ []) :
    packetCount rest.length = packetCount (rest.drop 16).length + 1 := by
  have hpos : 0 < rest.length := List.length_pos.mpr h
  rw [packetCount_eq, packetCount_eq, List.length_drop]
  omega

theorem groupAt_zero (rest : List Byte) : groupAt rest 0 = rest.take 16 := by
  simp [groupAt]

theorem groupAt_succ (rest : List Byte) (i : Nat) :
    groupAt rest (i + 1) = groupAt (rest.drop 16) i := by
  unfold groupAt
  rw [List.drop_drop]
  congr 2
  omega

theorem groupAt_length_le (rest : List Byte) (i : Nat) : (groupAt rest i).length ≤ 16 := by
  unfold groupAt
  rw [List.length_take]
  exact Nat.min_le_left _ _

/-- Walking a byte sequence in groups of 16: the first group is the first 16
bytes, the others are the groups of what follows. -/
theorem map_groups_cons {β : Type} (g : Nat → List Byte → β) (rest : List Byte) (h : rest ≠ []) :
    (List.range (packetCount rest.length)).map (fun i => g i (groupAt rest i))
      = g 0 (rest.take 16) ::
        (List.range (packetCount (rest.drop 16).length)).map
          (fun i => g (i + 1) (groupAt (rest.drop 16) i)) := by
  rw [packetCount_drop rest h, List.range_succ_eq_map, List.map_cons, List.map_map, groupAt_zero]
  congr 1
  apply List.map_congr_left
  intro i _
  simp only [Function.comp, Nat.succ_eq_add_one, groupAt_succ]

theorem groupChecksums_nil : groupChecksums [] = [] := by
  simp [groupChecksums, packetCount]

theorem groupChecksums_cons (rest : List Byte) (h : rest ≠ []) :
    groupChecksums rest = xorFold (rest.take 16) :: groupChecksums (rest.drop 16) := by
  unfold groupChecksums
  exact map_groups_cons (fun _ g => xorFold g) rest h

theorem groupChecksums_length (bytes : List Byte) :
    (groupChecksums bytes).length = packetCount bytes.length := by
  simp [groupChecksums]

/-! ## The two loops of the upload handler -/

theorem take_min_length (l : List Byte) : l.take (min 16 l.length) = l.take 16 := by
  rcases Nat.le_total 16 l.length with h | h
  · rw [Nat.min_eq_left h]
  · rw [Nat.min_eq_right h, List.take_length, List.take_of_length_le h]

/-- The write loop appends the checksums of the 16-byte groups of what is
left of the arriving chunk. -/
theorem checksumChunk_eq (buf : List Byte) (i : Nat) (log : List Byte) :
    checksumChunk buf i log = log ++ groupChecksums (buf.drop i) := by
  generalize hk : buf.length - i = k
  induction k using Nat.strong_induction_on generalizing i log with
  | _ k ih =>
    subst hk
    rw [checksumChunk]
    split
    · rename_i hlt
      have hne : buf.drop i ≠ [] := by
        intro h0
        have := congrArg List.length h0
        simp only [List.length_drop, List.length_nil] at this
        omega
      have hlen : min 16 (buf.length - i) = min 16 (buf.drop i).length := by
        rw [List.length_drop]
      simp only []
      rw [ih (buf.length - (i + 16)) (by omega) (i + 16) _ rfl, groupChecksums_cons _ hne,
        List.drop_drop, hlen,
        calculateXORChecksum_eq _ _ (Nat.min_le_right _ _)
          (Nat.lt_of_le_of_lt (Nat.min_le_left _ _) (by decide)),
        take_min_length]
      simp
    · rename_i hge
      have h0 : buf.drop i = [] := List.drop_eq_nil_of_le (by omega)
      rw [h0, groupChecksums_nil, List.append_nil]

theorem checksum_of_read (read : List Byte) (h : read.length ≤ 16) :
    calculateXORChecksum (read ++ List.replicate (16 - read.length) 0) read.length
      = xorFold read := by
  rw [calculateXORChecksum_eq _ _ (by simp) (by omega), List.take_left' rfl]

/-- The verification loop emits one row per 16-byte group of the file, the
row of group `i` carrying the 16-bit counter value `(n + i) mod 2^16`. -/
theorem verifyLoop_eq (log rest : List Byte) (n : Nat) (hn : n < 65536) :
    verifyLoop log rest n
      = (List.range (packetCount rest.length)).map
          (fun i => rowFor log ((n + i) % 65536) (groupAt rest i)) := by
  generalize hk : rest.length = k
  induction k using Nat.strong_induction_on generalizing rest n with
  | _ k ih =>
    subst hk
    rw [verifyLoop]
    split
    · rename_i h0
      subst h0
      simp [packetCount]
    · rename_i hne
      have hpos : 0 < rest.length := List.length_pos.mpr hne
      rw [map_groups_cons (fun i g => rowFor log ((n + i) % 65536) g) rest hne]
      simp only []
      rw [ih (rest.drop 16).length (by rw [List.length_drop]; omega) (rest.drop 16)
        ((n + 1) % UINT16_RANGE) (Nat.mod_lt _ (by decide)) rfl,
        checksum_of_read _ (by rw [List.length_take]; exact Nat.min_le_left _ _)]
      congr 1
      · simp [rowFor, Nat.mod_eq_of_lt hn]
      · apply List.map_congr_left
        intro i _
        congr 1
        simp only [UINT16_RANGE]
        omega

/-! ## The packet accessor on a stored file -/

/-- What `handleGetPacket` does once both parameters are present and the
file opens: the range check on the narrowed number, then the packet of the
group at that number. -/
theorem handleGetPacket_stored (fs : Storage) (filename : String) (file : List Byte) (v : Int)
    (hname : filename ≠ "") (hfile : fs (fullPath filename) = some file) :
    handleGetPacket fs filename (some v) =
      if totalPacketsOf (fileSizeOf file) ≤ (v % 65536).toNat then PacketResponse.outOfRange
      else PacketResponse.ok
        { packetNumber := (v % 65536).toNat
          dataLength := (groupAt file (v % 65536).toNat).length
          data := groupAt file (v % 65536).toNat ++
            List.replicate (16 - (groupAt file (v % 65536).toNat).length) 0
          checksum := xorFold (groupAt file (v % 65536).toNat) } := by
  have hlen := groupAt_length_le file (v % 65536).toNat
  have hmod : (groupAt file (v % 65536).toNat).length % 256
      = (groupAt file (v % 65536).toNat).length := Nat.mod_eq_of_lt (by omega)
  have hg : List.take 16 (List.drop ((v % 65536).toNat * 16) file)
      = groupAt file (v % 65536).toNat := by
    unfold groupAt
    rw [Nat.mul_comm]
  simp only [handleGetPacket, hname, hfile, if_false, UINT16_RANGE, UINT8_RANGE, ge_iff_le]
  norm_num only
  rw [hg, hmod, checksum_of_read _ hlen]

/-- Below 2^16 packets the 16-bit `totalPackets` is the specification's
packet count. -/
theorem totalPacketsOf_small (L : Nat) (h : L ≤ 1048560) :
    totalPacketsOf (L % SIZE_RANGE) = packetCount L := by
  rw [packetCount_eq]
  unfold totalPacketsOf SIZE_RANGE UINT16_RANGE
  omega

theorem bigFile_length : bigFile.length = 1048561 := by
  unfold bigFile
  exact List.length_replicate _ _

theorem bigFile_totalPackets : totalPacketsOf (fileSizeOf bigFile) = 0 := by
  rw [fileSizeOf, bigFile_length]
  decide

theorem bigFile_getPacket (v : Int) :
    handleGetPacket bigStore "f" (some v) = PacketResponse.outOfRange := by
  rw [handleGetPacket_stored bigStore "f" bigFile v (by decide) rfl, bigFile_totalPackets]
  simp

/-- The payloads of consecutive packets, concatenated, are a slice of the
file. -/
theorem download_slice (fs : Storage) (filename : String) (file : List Byte)
    (hname : filename ≠ "") (hfile : fs (fullPath filename) = some file)
    (hsize : file.length ≤ 1048560) (count i : Nat) (h : i + count ≤ packetCount file.length) :
    download fs filename i count = some ((file.drop (16 * i)).take (16 * count)) := by
  induction count generalizing i with
  | zero => simp [download]
  | succ c ih =>
    have hpc : packetCount file.length ≤ 65535 := by
      rw [packetCount_eq]
      omega
    have hi : ((i : Int) % 65536).toNat = i := by omega
    have htot := totalPacketsOf_small file.length hsize
    rw [download, handleGetPacket_stored fs filename file i hname hfile, hi, fileSizeOf, htot,
      if_neg (by omega), ih (i + 1) (by omega)]
    simp only [payloadOf, Option.map_some', List.take_left' rfl]
    congr 1
    unfold groupAt
    rw [show 16 * (c + 1) = 16 + 16 * c by omega, List.take_add, List.drop_drop]
    congr 3

/-! ## The upload session -/

theorem Storage.put_same (fs : Storage) (path : String) (content : List Byte) :
    fs.put path content path = some content := by
  simp [Storage.put]

theorem Storage.put_put (fs : Storage) (path : String) (c₁ c₂ : List Byte) :
    (fs.put path c₁).put path c₂ = fs.put path c₂ := by
  funext q
  simp only [Storage.put]
  split <;> rfl

/-- One UPLOAD_FILE_WRITE event appends the chunk to the file and the
checksums of the chunk's groups to the log. -/
theorem handleFileUpload_write (filename : String) (chunk : List Byte) (d : Device) :
    (handleFileUpload true ⟨UploadStatus.UPLOAD_FILE_WRITE, filename, chunk⟩ d).1 =
      { session := { uploadedFile := d.session.uploadedFile
                     uploadChecksums := d.session.uploadChecksums ++ groupChecksums chunk }
        fs := d.fs.put d.session.uploadedFile
                ((d.fs d.session.uploadedFile).getD [] ++ chunk) } := by
  simp [handleFileUpload, checksumChunk_eq]

theorem write_fold (filename path : String) (chunks : List (List Byte)) (fs : Storage)
    (log content : List Byte) :
    chunks.foldl
      (fun dev chunk =>
        (handleFileUpload true ⟨UploadStatus.UPLOAD_FILE_WRITE, filename, chunk⟩ dev).1)
      { session := { uploadedFile := path, uploadChecksums := log }, fs := fs.put path content }
    = { session := { uploadedFile := path
                     uploadChecksums := log ++ (chunks.map groupChecksums).flatten }
        fs := fs.put path (content ++ chunks.flatten) } := by
  induction chunks generalizing log content with
  | nil => simp
  | cons c cs ih =>
    rw [List.foldl_cons, handleFileUpload_write]
    simp only [Storage.put_same, Option.getD_some, Storage.put_put]
    rw [ih]
    simp [List.append_assoc]

/-- The device after the start event and the write events of an upload: the
log holds the checksums of the groups of each chunk, the file holds the
chunks in order. -/
theorem receiveUpload_eq (d : Device) (filename : String) (chunks : List (List Byte)) :
    receiveUpload d filename chunks =
      { session := { uploadedFile := "/" ++ filename
                     uploadChecksums := (chunks.map groupChecksums).flatten }
        fs := d.fs.put ("/" ++ filename) chunks.flatten } := by
  unfold receiveUpload
  have h0 : (handleFileUpload true ⟨UploadStatus.UPLOAD_FILE_START, filename, []⟩ d).1 =
      { session := { uploadedFile := "/" ++ filename, uploadChecksums := [] }
        fs := d.fs.put ("/" ++ filename) [] } := by
    simp [handleFileUpload]
  rw [h0, write_fold]
  simp

/-- The table sent at the end event, for a device whose uploaded file opens. -/
theorem finishUpload_eq (d : Device) (filename : String) (file : List Byte)
    (hfile : d.fs d.session.uploadedFile = some file) :
    finishUpload d filename =
      UploadReply.report
        ((List.range (packetCount file.length)).map
          (fun i => rowFor d.session.uploadChecksums (i % 65536) (groupAt file i))) := by
  unfold finishUpload
  simp only [handleFileUpload, if_true, hfile]
  rw [verifyLoop_eq _ _ 0 (by decide)]
  simp

theorem runUpload_eq (d : Device) (filename : String) (chunks : List (List Byte)) :
    runUpload d filename chunks =
      UploadReply.report
        ((List.range (packetCount chunks.flatten.length)).map
          (fun i => rowFor (chunks.map groupChecksums).flatten (i % 65536)
            (groupAt chunks.flatten i))) := by
  unfold runUpload
  rw [finishUpload_eq _ filename chunks.flatten (by rw [receiveUpload_eq]; simp [Storage.put]),
    receiveUpload_eq]

/-! ## Aligned chunks -/

theorem groupChecksums_append (l₁ l₂ : List Byte) (h : l₁.length % 16 = 0) :
    groupChecksums (l₁ ++ l₂) = groupChecksums l₁ ++ groupChecksums l₂ := by
  generalize hk : l₁.length = k
  induction k using Nat.strong_induction_on generalizing l₁ with
  | _ k ih =>
    subst hk
    by_cases h0 : l₁ = []
    · subst h0
      simp [groupChecksums_nil]
    · have hpos : 0 < l₁.length := List.length_pos.mpr h0
      have h16 : 16 ≤ l₁.length := by omega
      have hne : l₁ ++ l₂ ≠ [] := by simp [h0]
      rw [groupChecksums_cons _ hne, groupChecksums_cons _ h0,
        List.take_append_of_le_length h16, List.drop_append_of_le_length h16,
        ih (l₁.drop 16).length (by rw [List.length_drop]; omega) (l₁.drop 16)
          (by rw [List.length_drop]; omega) rfl]
      rfl

theorem aligned_log (chunks : List (List Byte)) (h : Aligned chunks) :
    (chunks.map groupChecksums).flatten = groupChecksums chunks.flatten := by
  induction chunks with
  | nil => simp [groupChecksums_nil]
  | cons c cs ih =>
    by_cases hcs : cs = []
    · subst hcs
      simp
    · obtain ⟨c', cs', rfl⟩ := List.exists_cons_of_ne_nil hcs
      have hc : c.length % 16 = 0 := h c (by simp [List.dropLast])
      have hrest : Aligned (c' :: cs') := by
        intro x hx
        exact h x (by rw [List.dropLast_cons₂]; exact List.mem_cons_of_mem _ hx)
      rw [List.map_cons, List.flatten_cons, List.flatten_cons, ih hrest,
        groupChecksums_append _ _ hc]

theorem rowFor_groupChecksums (file : List Byte) (i : Nat) (hi : i < packetCount file.length) :
    rowFor (groupChecksums file) i (groupAt file i)
      = ⟨i, xorFold (groupAt file i), xorFold (groupAt file i), Status.MATCH⟩ := by
  have hlen : i < (groupChecksums file).length := by
    rw [groupChecksums_length]
    exact hi
  have hget : (groupChecksums file).getD i 0 = xorFold (groupAt file i) := by
    simp [groupChecksums, hi]
  unfold rowFor
  simp only [hlen, if_true, hget]

/-! ## Replacing one stored byte -/

theorem groupAt_set (l : List Byte) (p : Nat) (v : Byte) (j : Nat) :
    groupAt (l.set p v) j =
      if j = p / 16 then (groupAt l j).set (p % 16) v else groupAt l j := by
  unfold groupAt
  rw [List.drop_set]
  split
  · rw [if_neg (by omega)]
  · rw [List.set_take]
    split
    · rw [show p - 16 * j = p % 16 by omega]
    · apply List.set_eq_of_length_le
      rw [List.length_take]
      omega

theorem xorFold_set_ne (g : List Byte) (k : Nat) (v : Byte) (hk : k < g.length)
    (hv : g[k] ≠ v) : xorFold (g.set k v) ≠ xorFold g := by
  have hs : g.set k v = g.take k ++ v :: g.drop (k + 1) := by
    rw [List.set_eq_take_append_cons_drop, if_pos hk]
  have hg : g.take k ++ g[k] :: g.drop (k + 1) = g := by
    rw [← List.drop_eq_getElem_cons hk, List.take_append_drop]
  have hx : xorFold g
      = xorFold (g.take k) ^^^ (g[k] ^^^ xorFold (g.drop (k + 1))) := by
    rw [← xorFold_cons, ← xorFold_append, hg]
  intro h
  rw [hs, xorFold_append, xorFold_cons, hx] at h
  have h1 := Byte.xor_left_cancel h
  rw [Byte.xor_comm v, Byte.xor_comm g[k]] at h1
  exact hv (Byte.xor_left_cancel h1).symm

theorem corruptStored_receive (d : Device) (filename : String) (chunks : List (List Byte))
    (p : Nat) (v : Byte) :
    corruptStored (receiveUpload d filename chunks) p v =
      { session := { uploadedFile := "/" ++ filename
                     uploadChecksums := (chunks.map groupChecksums).flatten }
        fs := d.fs.put ("/" ++ filename) (chunks.flatten.set p v) } := by
  rw [receiveUpload_eq]
  simp only [corruptStored, Storage.put_same, Storage.put_put]

/-- The table of an upload whose persisted byte `p` was replaced by `v`
before the end event. -/
theorem corrupted_report (d : Device) (filename : String) (chunks : List (List Byte))
    (p : Nat) (v : Byte) :
    finishUpload (corruptStored (receiveUpload d filename chunks) p v) filename =
      UploadReply.report
        ((List.range (packetCount chunks.flatten.length)).map
          (fun i => rowFor (chunks.map groupChecksums).flatten (i % 65536)
            (groupAt (chunks.flatten.set p v) i))) := by
  rw [corruptStored_receive,
    finishUpload_eq _ filename (chunks.flatten.set p v) (Storage.put_same _ _ _),
    List.length_set]

/-! ## An upload of 65537 groups -/

theorem bigChunks_aligned : Aligned bigChunks := by
  unfold bigChunks
  intro c hc
  rw [List.dropLast_concat] at hc
  rw [(List.mem_replicate.mp hc).2, List.length_replicate]

theorem bigChunks_flatten : bigChunks.flatten = List.replicate 1048576 0 ++ [1] := by
  unfold bigChunks
  rw [List.flatten_append, List.flatten_replicate_replicate]
  rfl

theorem bigChunks_log :
    (bigChunks.map groupChecksums).flatten = List.replicate 65536 0 ++ [1] := by
  unfold bigChunks
  rw [List.map_append, List.map_replicate, List.flatten_append,
    show groupChecksums (List.replicate 16 0) = [0] by decide,
    List.flatten_replicate_singleton]
  rfl

theorem bigChunks_length : bigChunks.flatten.length = 1048577 := by
  rw [bigChunks_flatten, List.length_append, List.length_replicate]
  rfl

theorem bigChunks_last_group :
    groupAt (List.replicate 1048576 (0 : Byte) ++ [1]) 65536 = [1] := by
  unfold groupAt
  rw [List.drop_left' ((List.length_replicate _ _).trans (by decide))]
  rfl

/-- Row counter 0 against the log of `bigChunks`: the logged checksum is the
one of group 0. -/
theorem bigChunks_row (g : List Byte) :
    rowFor (List.replicate 65536 0 ++ [1]) 0 g
      = ⟨0, 0, xorFold g, if (0 : Byte) = xorFold g then Status.MATCH else Status.MISMATCH⟩ := by
  have hlen : 0 < (List.replicate 65536 (0 : Byte) ++ [1]).length := by
    rw [List.length_append, List.length_replicate]
    decide
  have hget : (List.replicate 65536 (0 : Byte) ++ [1]).getD 0 0 = 0 := by
    rw [List.getD_eq_getElem?_getD,
      List.getElem?_append_left (by rw [List.length_replicate]; decide),
      List.getElem?_replicate_of_lt (by decide)]
    rfl
  unfold rowFor
  simp only [hlen, if_true, hget]

/-! ## Claims -/

/-- C8. `calculateXORChecksum` is order-independent: for every byte sequence
`xs` whose length fits the `uint8_t` length parameter and every permutation
`ys` of it, the checksum of `ys` is the checksum of `xs`; and the checksum of
the empty sequence is 0. -/
theorem calculateXORChecksum_perm (xs ys : List Byte) (hlen : xs.length < 256)
    (hperm : List.Perm ys xs) :
    calculateXORChecksum ys ys.length = calculateXORChecksum xs xs.length
      ∧ calculateXORChecksum [] 0 = 0 := by
  have hy : ys.length = xs.length := hperm.length_eq
  refine ⟨?_, rfl⟩
  rw [calculateXORChecksum_eq ys ys.length (Nat.le_refl _) (by omega),
    calculateXORChecksum_eq xs xs.length (Nat.le_refl _) hlen, List.take_length, List.take_length]
  exact xorFold_perm hperm

/-- Witness of C8 at `xs = [1, 2, 3]`, `ys = [3, 1, 2]`. -/
theorem calculateXORChecksum_perm_witness :
    ([1, 2, 3] : List Byte).length < 256 ∧ List.Perm ([3, 1, 2] : List Byte) [1, 2, 3] ∧
    (calculateXORChecksum [3, 1, 2] ([3, 1, 2] : List Byte).length
        = calculateXORChecksum [1, 2, 3] ([1, 2, 3] : List Byte).length
      ∧ calculateXORChecksum [] 0 = 0) :=
  ⟨by decide, by decide, calculateXORChecksum_perm [1, 2, 3] [3, 1, 2] (by decide) (by decide)⟩

/-- C3, as stated, fails: a file of 1048561 bytes has `ceil(L/16) = 65536`
packets, its size is a `size_t` value and is not 0, yet the 16-bit
`totalPackets` of both handlers is 0, which is what `describePackets`
reports. -/
theorem totalPackets_counterexample :
    1048561 < SIZE_RANGE ∧ packetCount 1048561 = 65536 ∧ totalPacketsOf 1048561 = 0 ∧
    handleDownloadPackets bigStore "f" = InfoResponse.ok ⟨1048561, 0, 16⟩ := by
  refine ⟨by decide, by decide, by decide, ?_⟩
  have hsz : fileSizeOf bigFile = 1048561 := by
    rw [fileSizeOf, bigFile_length]
    decide
  simp only [handleDownloadPackets, bigStore, hsz]
  decide

/-- C3, amended. For every stored file of at most 1048560 bytes (at most
65535 packets) the 16-bit `totalPackets` computed by `handleDownloadPackets`
and `handleGetPacket` equals `ceil(L/16)`, the least `t` with `L ≤ 16 t`; it
is 0 if and only if `L = 0`; and `handleDownloadPackets` reports the size,
that count and the packet size 16. -/
theorem totalPackets_eq_ceil (fs : Storage) (filename : String) (file : List Byte)
    (hname : filename ≠ "") (hfile : fs (fullPath filename) = some file)
    (hsize : file.length ≤ 1048560) :
    totalPacketsOf (fileSizeOf file) = packetCount file.length
      ∧ file.length ≤ 16 * totalPacketsOf (fileSizeOf file)
      ∧ 16 * totalPacketsOf (fileSizeOf file) < file.length + 16
      ∧ (totalPacketsOf (fileSizeOf file) = 0 ↔ file.length = 0)
      ∧ handleDownloadPackets fs filename
          = InfoResponse.ok ⟨file.length, packetCount file.length, 16⟩ := by
  have htot : totalPacketsOf (fileSizeOf file) = packetCount file.length :=
    totalPacketsOf_small file.length hsize
  have hsz : fileSizeOf file = file.length := by
    unfold fileSizeOf SIZE_RANGE
    omega
  have hb := packetCount_bounds file.length
  refine ⟨htot, by omega, by omega, by omega, ?_⟩
  simp only [handleDownloadPackets, hname, hfile, if_false, htot]
  rw [hsz]

/-- Witness of the amended C3 at the 18-byte file of the scenario. -/
theorem totalPackets_eq_ceil_witness :
    "hello.bin" ≠ "" ∧ helloStore (fullPath "hello.bin") = some helloBytes ∧
    helloBytes.length ≤ 1048560 ∧
    (totalPacketsOf (fileSizeOf helloBytes) = packetCount helloBytes.length
      ∧ helloBytes.length ≤ 16 * totalPacketsOf (fileSizeOf helloBytes)
      ∧ 16 * totalPacketsOf (fileSizeOf helloBytes) < helloBytes.length + 16
      ∧ (totalPacketsOf (fileSizeOf helloBytes) = 0 ↔ helloBytes.length = 0)
      ∧ handleDownloadPackets helloStore "hello.bin"
          = InfoResponse.ok ⟨helloBytes.length, packetCount helloBytes.length, 16⟩) :=
  ⟨by decide, by decide, by decide,
    totalPackets_eq_ceil helloStore "hello.bin" helloBytes (by decide) (by decide) (by decide)⟩

/-- C7, as stated, fails: for the 18-byte file (`packetCount = 2`) the
request number 65536 is at least the packet count, yet the narrowed number is
0 and the request succeeds with packet 0; and for the file of 1048561 bytes
the request number 0 is below `packetCount = 65536`, yet the request fails
with out-of-range. -/
theorem getPacket_range_counterexample :
    packetCount helloBytes.length = 2 ∧
    handleGetPacket helloStore "hello.bin" (some 65536) =
      PacketResponse.ok
        ⟨0, 16, [65, 66, 67, 68, 69, 70, 71, 72, 73, 74, 75, 76, 77, 78, 79, 80], 16⟩ ∧
    packetCount bigFile.length = 65536 ∧
    handleGetPacket bigStore "f" (some 0) = PacketResponse.outOfRange := by
  refine ⟨by decide, by decide, ?_, bigFile_getPacket 0⟩
  rw [bigFile_length]
  decide

/-- C7, amended. For every existing file of at most 1048560 bytes and every
request number `n` with `0 ≤ n < 65536`: `handleGetPacket` fails with
out-of-range when `n ≥ packetCount` and succeeds when `n < packetCount`; in
particular `n = packetCount` fails and, when `packetCount > 0`,
`n = packetCount - 1` succeeds. -/
theorem getPacket_range (fs : Storage) (filename : String) (file : List Byte) (n : Nat)
    (hname : filename ≠ "") (hfile : fs (fullPath filename) = some file)
    (hsize : file.length ≤ 1048560) (hn : n < 65536) :
    (packetCount file.length ≤ n →
        handleGetPacket fs filename (some (n : Int)) = PacketResponse.outOfRange)
      ∧ (n < packetCount file.length →
        ∃ p, handleGetPacket fs filename (some (n : Int)) = PacketResponse.ok p)
      ∧ handleGetPacket fs filename (some (packetCount file.length : Int))
          = PacketResponse.outOfRange
      ∧ (0 < packetCount file.length →
        ∃ p, handleGetPacket fs filename (some ((packetCount file.length - 1 : Nat) : Int))
          = PacketResponse.ok p) := by
  have hpc : packetCount file.length ≤ 65535 := by
    rw [packetCount_eq]
    omega
  have htot : totalPacketsOf (fileSizeOf file) = packetCount file.length :=
    totalPacketsOf_small file.length hsize
  have key : ∀ m : Nat, m < 65536 →
      (packetCount file.length ≤ m →
        handleGetPacket fs filename (some (m : Int)) = PacketResponse.outOfRange)
      ∧ (m < packetCount file.length →
        ∃ p, handleGetPacket fs filename (some (m : Int)) = PacketResponse.ok p) := by
    intro m hm
    have hi : ((m : Int) % 65536).toNat = m := by omega
    rw [handleGetPacket_stored fs filename file m hname hfile, hi, htot]
    constructor
    · intro h
      rw [if_pos h]
    · intro h
      rw [if_neg (by omega)]
      exact ⟨_, rfl⟩
  refine ⟨(key n hn).1, (key n hn).2, (key _ (by omega)).1 (Nat.le_refl _), ?_⟩
  intro hpos
  exact (key (packetCount file.length - 1) (by omega)).2 (by omega)

/-- Witness of the amended C7 at the 18-byte file and `n = 1`. -/
theorem getPacket_range_witness :
    "hello.bin" ≠ "" ∧ helloStore (fullPath "hello.bin") = some helloBytes ∧
    helloBytes.length ≤ 1048560 ∧ 1 < 65536 ∧
    ((packetCount helloBytes.length ≤ 1 →
        handleGetPacket helloStore "hello.bin" (some ((1 : Nat) : Int))
          = PacketResponse.outOfRange)
      ∧ (1 < packetCount helloBytes.length →
        ∃ p, handleGetPacket helloStore "hello.bin" (some ((1 : Nat) : Int))
          = PacketResponse.ok p)
      ∧ handleGetPacket helloStore "hello.bin" (some (packetCount helloBytes.length : Int))
          = PacketResponse.outOfRange
      ∧ (0 < packetCount helloBytes.length →
        ∃ p, handleGetPacket helloStore "hello.bin"
            (some ((packetCount helloBytes.length - 1 : Nat) : Int))
          = PacketResponse.ok p)) :=
  ⟨by decide, by decide, by decide, by decide,
    getPacket_range helloStore "hello.bin" helloBytes 1 (by decide) (by decide) (by decide)
      (by decide)⟩

/-- C2, as stated, fails: for the file of 1048561 bytes the index 0 is below
`packetCount = 65536`, yet `handleGetPacket` builds no packet: it answers
out-of-range. -/
theorem getPacket_reference_counterexample :
    0 < packetCount bigFile.length ∧
    handleGetPacket bigStore "f" (some ((0 : Nat) : Int)) = PacketResponse.outOfRange := by
  refine ⟨?_, bigFile_getPacket _⟩
  rw [bigFile_length]
  decide

/-- C2, amended. For every stored file of `L ≤ 1048560` bytes and every index
`i < packetCount`, `handleGetPacket` builds a packet with `packetNumber = i`;
`dataLength = 16` when `i` is not the last index and, for the last index,
`L mod 16` (or 16 when `L` is a positive multiple of 16); `data[0:dataLength]`
the file bytes at offsets `16 i .. 16 i + dataLength - 1`; 16 data bytes, zero
from position `dataLength` on; `checksum` the XOR fold of `data[0:dataLength]`. -/
theorem getPacket_reference (fs : Storage) (filename : String) (file : List Byte) (i : Nat)
    (hname : filename ≠ "") (hfile : fs (fullPath filename) = some file)
    (hsize : file.length ≤ 1048560) (hi : i < packetCount file.length) :
    ∃ p, handleGetPacket fs filename (some (i : Int)) = PacketResponse.ok p
      ∧ p.packetNumber = i
      ∧ p.dataLength = referenceDataLength file.length i
      ∧ 16 * i + p.dataLength ≤ file.length
      ∧ p.data.take p.dataLength = (file.drop (16 * i)).take p.dataLength
      ∧ p.data.length = 16
      ∧ (∀ k, p.dataLength ≤ k → k < 16 → p.data[k]? = some 0)
      ∧ p.checksum = xorFold (p.data.take p.dataLength) := by
  have hpc : packetCount file.length = (file.length + 15) / 16 := packetCount_eq _
  have hnum : ((i : Int) % 65536).toNat = i := by omega
  have htot : totalPacketsOf (fileSizeOf file) = packetCount file.length :=
    totalPacketsOf_small file.length hsize
  have hlen : (groupAt file i).length = min 16 (file.length - 16 * i) := by
    simp [groupAt]
  have hle : (groupAt file i).length ≤ 16 := groupAt_length_le file i
  rw [handleGetPacket_stored fs filename file i hname hfile, hnum, htot, if_neg (by omega)]
  refine ⟨_, rfl, rfl, ?_, ?_, ?_, ?_, ?_, ?_⟩
  · show (groupAt file i).length = referenceDataLength file.length i
    rw [hlen]
    unfold referenceDataLength
    rw [hpc]
    split_ifs <;> omega
  · show 16 * i + (groupAt file i).length ≤ file.length
    omega
  · show List.take (groupAt file i).length (groupAt file i ++ _)
      = List.take (groupAt file i).length (List.drop (16 * i) file)
    rw [List.take_left' rfl]
    unfold groupAt
    rw [List.length_take, take_min_length]
  · show (groupAt file i ++ List.replicate (16 - (groupAt file i).length) 0).length = 16
    rw [List.length_append, List.length_replicate]
    omega
  · intro k hk1 hk2
    have hk : (groupAt file i).length ≤ k := hk1
    show (groupAt file i ++ List.replicate (16 - (groupAt file i).length) 0)[k]? = some 0
    rw [List.getElem?_append_right hk, List.getElem?_replicate, if_pos (by omega)]
  · show xorFold (groupAt file i) = xorFold (List.take (groupAt file i).length (groupAt file i ++ _))
    rw [List.take_left' rfl]

/-- Witness of the amended C2: the 18-byte file "ABCDEFGHIJKLMNOPQR" at
index 1, with the two packets of the scenario evaluated. -/
theorem getPacket_reference_witness :
    "hello.bin" ≠ "" ∧ helloStore (fullPath "hello.bin") = some helloBytes ∧
    helloBytes.length ≤ 1048560 ∧ 1 < packetCount helloBytes.length ∧
    (∃ p, handleGetPacket helloStore "hello.bin" (some ((1 : Nat) : Int)) = PacketResponse.ok p
      ∧ p.packetNumber = 1
      ∧ p.dataLength = referenceDataLength helloBytes.length 1
      ∧ 16 * 1 + p.dataLength ≤ helloBytes.length
      ∧ p.data.take p.dataLength = (helloBytes.drop (16 * 1)).take p.dataLength
      ∧ p.data.length = 16
      ∧ (∀ k, p.dataLength ≤ k → k < 16 → p.data[k]? = some 0)
      ∧ p.checksum = xorFold (p.data.take p.dataLength)) ∧
    handleGetPacket helloStore "hello.bin" (some 0) =
      PacketResponse.ok
        ⟨0, 16, [65, 66, 67, 68, 69, 70, 71, 72, 73, 74, 75, 76, 77, 78, 79, 80], 16⟩ ∧
    handleGetPacket helloStore "hello.bin" (some 1) =
      PacketResponse.ok ⟨1, 2, [81, 82, 0, 0, 0, 0, 0, 0, 0, 0, 0, 0, 0, 0, 0, 0], 81 ^^^ 82⟩ :=
  ⟨by decide, by decide, by decide, by decide,
    getPacket_reference helloStore "hello.bin" helloBytes 1 (by decide) (by decide) (by decide)
      (by decide),
    by decide, by decide⟩

/-- C1, as stated, fails: for the stored file of 1048561 bytes every request
is answered out-of-range, so requesting packets `0 .. packetCount - 1` yields
nothing, and the number of packets the device reports is 0, for which the
concatenation is empty while the file is not. -/
theorem download_counterexample :
    download bigStore "f" 0 (packetCount bigFile.length) = none ∧
    download bigStore "f" 0 (totalPacketsOf (fileSizeOf bigFile)) = some [] ∧
    bigFile ≠ [] := by
  refine ⟨?_, ?_, ?_⟩
  · rw [bigFile_length, show packetCount 1048561 = 65535 + 1 by decide, download,
      bigFile_getPacket]
    rfl
  · rw [bigFile_totalPackets]
    rfl
  · intro h
    have := congrArg List.length h
    rw [bigFile_length] at this
    exact absurd this (by decide)

/-- C1, amended. Round trip: for every stored file of at most 1048560 bytes
(at most 65535 packets), concatenating `data[0:dataLength]` of the packets
returned by `handleGetPacket` for `i = 0, 1, ..., packetCount - 1`, in order,
yields exactly the file. -/
theorem download_roundtrip (fs : Storage) (filename : String) (file : List Byte)
    (hname : filename ≠ "") (hfile : fs (fullPath filename) = some file)
    (hsize : file.length ≤ 1048560) :
    download fs filename 0 (packetCount file.length) = some file := by
  rw [download_slice fs filename file hname hfile hsize (packetCount file.length) 0 (by omega)]
  have hb := (packetCount_bounds file.length).1
  simp only [Nat.mul_zero, List.drop_zero]
  rw [List.take_of_length_le hb]

/-- Witness of the amended C1 at the 18-byte file. -/
theorem download_roundtrip_witness :
    "hello.bin" ≠ "" ∧ helloStore (fullPath "hello.bin") = some helloBytes ∧
    helloBytes.length ≤ 1048560 ∧
    download helloStore "hello.bin" 0 (packetCount helloBytes.length) = some helloBytes :=
  ⟨by decide, by decide, by decide,
    download_roundtrip helloStore "hello.bin" helloBytes (by decide) (by decide) (by decide)⟩

/-- C4 at its own scenario: the 18 bytes "ABCDEFGHIJKLMNOPQR" uploaded as two
chunks of sizes 10 and 8 are persisted exactly, the log holds the checksums of
the two chunks (11 and 24), the verification recomputes the checksums of the
groups of 16 and 2 bytes (16 and 3), and both rows are MISMATCH. -/
theorem misaligned_upload_mismatch :
    (helloBytes.take 10).length = 10 ∧ (helloBytes.drop 10).length = 8 ∧
    (receiveUpload emptyDevice "hello.bin" [helloBytes.take 10, helloBytes.drop 10]).fs
        "/hello.bin" = some helloBytes ∧
    runUpload emptyDevice "hello.bin" [helloBytes.take 10, helloBytes.drop 10] =
      UploadReply.report [⟨0, 11, 16, Status.MISMATCH⟩, ⟨1, 24, 3, Status.MISMATCH⟩] := by
  refine ⟨by decide, by decide, ?_, ?_⟩
  · rw [receiveUpload_eq]
    decide
  · rw [runUpload_eq]
    decide

/-- C6 on a one-packet file: the stored file `/f` holds the single byte 0xFF,
an upload of `f` starts with the open for writing failing (the file and the
empty log are left as they were) and ends; group 0 has no log entry, yet the
end event reports its row as MATCH, the substituted 0xFF being equal to the
recomputed checksum. -/
theorem missing_entry_match :
    (handleFileUpload false ⟨UploadStatus.UPLOAD_FILE_START, "f", []⟩
        ⟨⟨"", []⟩, sentinelDevice.fs⟩).1.session.uploadedFile = "/f" ∧
    (handleFileUpload false ⟨UploadStatus.UPLOAD_FILE_START, "f", []⟩
        ⟨⟨"", []⟩, sentinelDevice.fs⟩).1.session.uploadChecksums = [] ∧
    (handleFileUpload false ⟨UploadStatus.UPLOAD_FILE_START, "f", []⟩
        ⟨⟨"", []⟩, sentinelDevice.fs⟩).1.fs "/f" = some [0xFF] ∧
    0 < packetCount ([0xFF] : List Byte).length ∧
    finishUpload
        (handleFileUpload false ⟨UploadStatus.UPLOAD_FILE_START, "f", []⟩
          ⟨⟨"", []⟩, sentinelDevice.fs⟩).1 "f"
      = UploadReply.report [⟨0, 0xFF, 0xFF, Status.MATCH⟩] ∧
    finishUpload sentinelDevice "f" = UploadReply.report [⟨0, 0xFF, 0xFF, Status.MATCH⟩] := by
  refine ⟨by decide, by decide, by decide, by decide, ?_, ?_⟩
  · rw [finishUpload_eq _ "f" [0xFF] (by decide)]
    decide
  · rw [finishUpload_eq sentinelDevice "f" [0xFF] (by decide)]
    decide

/-- C10, as stated, fails: the upload `bigChunks` has every chunk but the
last of size 16 and is persisted exactly, yet the row of group 65536 carries
the wrapped counter 0, compares the recomputed checksum 1 with log entry 0,
and is MISMATCH. -/
theorem aligned_upload_counterexample :
    (∀ c ∈ bigChunks.dropLast, c.length % 16 = 0) ∧
    (receiveUpload emptyDevice "f" bigChunks).fs "/f" = some bigChunks.flatten ∧
    ∃ rows, runUpload emptyDevice "f" bigChunks = UploadReply.report rows
      ∧ rows[65536]? = some ⟨0, 0, 1, Status.MISMATCH⟩ := by
  refine ⟨bigChunks_aligned, ?_, _, runUpload_eq _ _ _, ?_⟩
  · rw [receiveUpload_eq]
    exact Storage.put_same emptyDevice.fs ("/" ++ "f") bigChunks.flatten
  · rw [List.getElem?_map, bigChunks_length,
      List.getElem?_range (show 65536 < packetCount 1048577 by decide), bigChunks_log,
      bigChunks_flatten]
    show some (rowFor _ 0 _) = _
    rw [bigChunks_row, bigChunks_last_group]
    rfl

/-- C10, amended. For every upload delivered as chunks `c_1 .. c_k` after a
successful start, the checksum log has length `sum_j ceil(|c_j|/16)` and the
file holds the concatenation; when every chunk except possibly the last has a
size that is a multiple of 16, the log is the list of XOR checksums of the
consecutive 16-byte groups of the concatenation; and when moreover the
concatenation has at most 65536 groups (at most 1048576 bytes), every row of
the verification report is MATCH. -/
theorem aligned_upload (d : Device) (filename : String) (chunks : List (List Byte)) :
    (receiveUpload d filename chunks).session.uploadChecksums.length
        = (chunks.map (fun c => packetCount c.length)).sum
      ∧ (receiveUpload d filename chunks).fs (receiveUpload d filename chunks).session.uploadedFile
        = some chunks.flatten
      ∧ ((∀ c ∈ chunks.dropLast, c.length % 16 = 0) →
          (receiveUpload d filename chunks).session.uploadChecksums
              = groupChecksums chunks.flatten
            ∧ (chunks.flatten.length ≤ 1048576 →
                ∃ rows, runUpload d filename chunks = UploadReply.report rows
                  ∧ rows.length = packetCount chunks.flatten.length
                  ∧ ∀ r ∈ rows, r.status = Status.MATCH)) := by
  refine ⟨?_, ?_, ?_⟩
  · rw [receiveUpload_eq]
    simp only [List.length_flatten, List.map_map]
    congr 1
    apply List.map_congr_left
    intro c _
    simp [groupChecksums_length]
  · rw [receiveUpload_eq]
    exact Storage.put_same _ _ _
  · intro haligned
    have hlog := aligned_log chunks haligned
    refine ⟨by rw [receiveUpload_eq]; exact hlog, ?_⟩
    intro hsize
    refine ⟨_, runUpload_eq d filename chunks, by simp, ?_⟩
    intro r hr
    obtain ⟨i, hi, rfl⟩ := List.mem_map.mp hr
    have hi2 : i < packetCount chunks.flatten.length := List.mem_range.mp hi
    have hpc : packetCount chunks.flatten.length ≤ 65536 := by
      rw [packetCount_eq]
      omega
    rw [hlog, Nat.mod_eq_of_lt (by omega), rowFor_groupChecksums _ _ hi2]

/-- Witness of the amended C10: the 18 bytes uploaded as one chunk of 16 and
one of 2. -/
theorem aligned_upload_witness :
    (∀ c ∈ [helloBytes.take 16, helloBytes.drop 16].dropLast, c.length % 16 = 0) ∧
    [helloBytes.take 16, helloBytes.drop 16].flatten.length ≤ 1048576 ∧
    ((receiveUpload emptyDevice "hello.bin"
        [helloBytes.take 16, helloBytes.drop 16]).session.uploadChecksums
        = groupChecksums [helloBytes.take 16, helloBytes.drop 16].flatten
      ∧ ∃ rows, runUpload emptyDevice "hello.bin" [helloBytes.take 16, helloBytes.drop 16]
          = UploadReply.report rows
        ∧ rows.length = packetCount [helloBytes.take 16, helloBytes.drop 16].flatten.length
        ∧ ∀ r ∈ rows, r.status = Status.MATCH) :=
  have h1 : ∀ c ∈ [helloBytes.take 16, helloBytes.drop 16].dropLast, c.length % 16 = 0 := by
    decide
  have h2 : [helloBytes.take 16, helloBytes.drop 16].flatten.length ≤ 1048576 := by decide
  have h := (aligned_upload emptyDevice "hello.bin" [helloBytes.take 16, helloBytes.drop 16]).2.2 h1
  ⟨h1, h2, h.1, h.2 h2⟩

/-- C5, as stated, fails: in the upload `bigChunks` (every chunk but the last
of size 16) the persisted byte at position 1048576 has value 1 and is replaced
by 0; the row of its group, `floor(1048576/16) = 65536`, carries the wrapped
counter 0, compares the recomputed checksum 0 with log entry 0, and is MATCH,
not MISMATCH. -/
theorem corrupt_one_byte_counterexample :
    (∀ c ∈ bigChunks.dropLast, c.length % 16 = 0) ∧
    bigChunks.flatten[1048576]? = some 1 ∧ (0 : Byte) ≠ 1 ∧
    ∃ rows, finishUpload (corruptStored (receiveUpload emptyDevice "f" bigChunks) 1048576 0) "f"
        = UploadReply.report rows
      ∧ rows[1048576 / 16]? = some ⟨0, 0, 0, Status.MATCH⟩ := by
  refine ⟨bigChunks_aligned, ?_, by decide, _, corrupted_report _ _ _ _ _, ?_⟩
  · rw [bigChunks_flatten,
      List.getElem?_append_right (by rw [List.length_replicate]), List.length_replicate]
    rfl
  · rw [List.getElem?_map, bigChunks_length,
      List.getElem?_range (show 1048576 / 16 < packetCount 1048577 by decide), bigChunks_log,
      bigChunks_flatten]
    show some (rowFor _ 0 (groupAt _ 65536)) = _
    rw [bigChunks_row, groupAt_set, if_pos (by decide), bigChunks_last_group]
    rfl

/-- C5, amended. For every upload whose chunks each have a size that is a
multiple of 16 except possibly the last, whose file has at most 65536 groups
(at most 1048576 bytes), and every byte position `p` of the persisted file
whose value is replaced by a different byte value before verification: the
report has one row per group, row `floor(p/16)` is MISMATCH, and every other
row is MATCH. -/
theorem corrupt_one_byte (d : Device) (filename : String) (chunks : List (List Byte))
    (p : Nat) (v : Byte)
    (haligned : ∀ c ∈ chunks.dropLast, c.length % 16 = 0)
    (hsize : chunks.flatten.length ≤ 1048576)
    (hp : p < chunks.flatten.length)
    (hv : chunks.flatten[p]? ≠ some v) :
    ∃ rows, finishUpload (corruptStored (receiveUpload d filename chunks) p v) filename
        = UploadReply.report rows
      ∧ rows.length = packetCount chunks.flatten.length
      ∧ (∃ r, rows[p / 16]? = some r ∧ r.packetNum = p / 16 ∧ r.status = Status.MISMATCH)
      ∧ (∀ j r, rows[j]? = some r → j ≠ p / 16 → r.packetNum = j ∧ r.status = Status.MATCH) := by
  have hlog := aligned_log chunks haligned
  have hpc : packetCount chunks.flatten.length = (chunks.flatten.length + 15) / 16 :=
    packetCount_eq _
  have hrow : ∀ j, j < packetCount chunks.flatten.length →
      ((List.range (packetCount chunks.flatten.length)).map
        (fun i => rowFor (chunks.map groupChecksums).flatten (i % 65536)
          (groupAt (chunks.flatten.set p v) i)))[j]?
        = some (rowFor (groupChecksums chunks.flatten) j (groupAt (chunks.flatten.set p v) j)) := by
    intro j hj
    rw [List.getElem?_map, List.getElem?_range hj]
    show some (rowFor _ (j % 65536) _) = _
    rw [Nat.mod_eq_of_lt (by omega), hlog]
  have hstored : ∀ j, j < packetCount chunks.flatten.length →
      (if j < (groupChecksums chunks.flatten).length then
          (groupChecksums chunks.flatten).getD j 0 else 0xFF)
        = xorFold (groupAt chunks.flatten j) := by
    intro j hj
    have h := rowFor_groupChecksums chunks.flatten j hj
    exact congrArg Row.uploadChecksum h
  refine ⟨_, corrupted_report d filename chunks p v, by simp, ?_, ?_⟩
  · refine ⟨_, hrow (p / 16) (by omega), rfl, ?_⟩
    have hk : p % 16 < (groupAt chunks.flatten (p / 16)).length := by
      simp only [groupAt, List.length_take, List.length_drop]
      omega
    have hget : (groupAt chunks.flatten (p / 16))[p % 16] ≠ v := by
      intro h
      apply hv
      rw [← h]
      simp only [groupAt, List.getElem_take, List.getElem_drop]
      rw [List.getElem?_eq_getElem hp]
      congr 2
      omega
    have hne := xorFold_set_ne _ _ v hk hget
    unfold rowFor
    simp only [hstored (p / 16) (by omega)]
    rw [groupAt_set, if_pos rfl, if_neg (fun h => hne h.symm)]
  · intro j r hjr hj
    have hjlt : j < packetCount chunks.flatten.length := by
      have := (List.getElem?_eq_some_iff.mp hjr).1
      simpa using this
    rw [hrow j hjlt] at hjr
    have hr : r = rowFor (groupChecksums chunks.flatten) j (groupAt (chunks.flatten.set p v) j) :=
      (Option.some.inj hjr).symm
    rw [hr, groupAt_set, if_neg hj, rowFor_groupChecksums _ _ hjlt]
    exact ⟨rfl, rfl⟩

/-- Witness of the amended C5: the 18 bytes uploaded as chunks of 16 and 2,
byte 17 ('R') replaced by 0. -/
theorem corrupt_one_byte_witness :
    (∀ c ∈ [helloBytes.take 16, helloBytes.drop 16].dropLast, c.length % 16 = 0) ∧
    [helloBytes.take 16, helloBytes.drop 16].flatten.length ≤ 1048576 ∧
    17 < [helloBytes.take 16, helloBytes.drop 16].flatten.length ∧
    [helloBytes.take 16, helloBytes.drop 16].flatten[17]? ≠ some 0 ∧
    (∃ rows, finishUpload (corruptStored (receiveUpload emptyDevice "hello.bin"
          [helloBytes.take 16, helloBytes.drop 16]) 17 0) "hello.bin"
        = UploadReply.report rows
      ∧ rows.length = packetCount [helloBytes.take 16, helloBytes.drop 16].flatten.length
      ∧ (∃ r, rows[17 / 16]? = some r ∧ r.packetNum = 17 / 16 ∧ r.status = Status.MISMATCH)
      ∧ (∀ j r, rows[j]? = some r → j ≠ 17 / 16 →
          r.packetNum = j ∧ r.status = Status.MATCH)) :=
  ⟨by decide, by decide, by decide, by decide,
    corrupt_one_byte emptyDevice "hello.bin" [helloBytes.take 16, helloBytes.drop 16] 17 0
      (by decide) (by decide) (by decide) (by decide)⟩

end WiFiFileTransfer
